import Mathlib

/-!
Verification of the risk-matrix program: a shallow embedding of
`feng_xian_ju_zhen.py` (console variant) and `risk_matrix_api.py`
(web-API variant), followed by theorems about the embedded operations.

Python dictionaries are modelled as insertion-ordered association lists
whose keys stay unique because every write goes through `dictInsert`.
Python's `sorted` (a stable sort) is modelled by Mathlib's stable
`List.insertionSort`.  Spreadsheet cells are modelled as `Option String`:
`none` stands for a missing cell (pandas `NaN`), `some s` for a cell whose
textual content is `s`; Python's `str(cell)` and `int(cell)` become
`pyStr` and `pyInt` below.
-/

/-- One entry of the model's `levels` list: `{"name": ..., "threshold": ...}`. -/
structure ThresholdLevel where
  name : String
  threshold : Int
deriving Repr, DecidableEq

/-- The risk-model dictionary of `risk_matrix_api.py`:
`{"probability": {...}, "severity": {...}, "levels": [...]}`. -/
structure RiskModel where
  probability : List (String × Int)
  severity : List (String × Int)
  levels : List ThresholdLevel
deriving Repr, DecidableEq

/-- Python dict lookup `d.get(k)` / membership `k in d` on an
insertion-ordered association list. -/
def dictFind? (d : List (String × Int)) (k : String) : Option Int :=
  (d.find? (fun p => p.1 == k)).map (fun p => p.2)

/-- Python `d[k] = v`: overwrite the entry in place when the key is present,
append it otherwise (dict insertion-order semantics). -/
def dictInsert (d : List (String × Int)) (k : String) (v : Int) : List (String × Int) :=
  if d.any (fun p => p.1 == k) then
    d.map (fun p => if p.1 == k then (k, v) else p)
  else d ++ [(k, v)]

/-- `d[k]` where the caller has already checked membership (total, default 0). -/
def lookupD (d : List (String × Int)) (k : String) : Int :=
  (dictFind? d k).getD 0

/-- `DEFAULT_RISK_MODEL` of `risk_matrix_api.py`, lines 15-24. -/
def DEFAULT_RISK_MODEL : RiskModel :=
  { probability := [("极少发生", 1), ("很少发生", 2), ("偶尔发生", 3), ("有时发生", 4), ("经常发生", 5)],
    severity := [("轻微", 1), ("轻度", 2), ("严重", 3), ("灾难", 4)],
    levels := [⟨"低风险", 4⟩, ⟨"中风险", 9⟩, ⟨"高风险", 15⟩, ⟨"极高风险", 999⟩] }

/-- `calculate_risk_value` of `risk_matrix_api.py`: the product model. -/
def calculate_risk_value (prob_val sev_val : Int) : Int :=
  prob_val * sev_val

/-- The ordering used by `sorted(levels, key=lambda x: x["threshold"])`. -/
def levelLE (a b : ThresholdLevel) : Prop :=
  a.threshold ≤ b.threshold

instance : DecidableRel levelLE :=
  fun a b => inferInstanceAs (Decidable (a.threshold ≤ b.threshold))

/-- `sorted(current_risk_model["levels"], key=lambda x: x["threshold"])`. -/
def sortedLevels (levels : List ThresholdLevel) : List ThresholdLevel :=
  List.insertionSort levelLE levels

/-- `determine_risk_level` of `risk_matrix_api.py`: first sorted level whose
threshold is `>=` the risk value, sentinel `"未知风险"` otherwise. -/
def determine_risk_level (levels : List ThresholdLevel) (risk_value : Int) : String :=
  match (sortedLevels levels).find? (fun l => decide (risk_value ≤ l.threshold)) with
  | some l => l.name
  | none => "未知风险"

/-- `assess_risk` of `risk_matrix_api.py`: membership check on both names
first, then lookup, multiply, and band the result. -/
def assess_risk (m : RiskModel) (probability severity : String) :
    Except String (Int × String) :=
  if (dictFind? m.probability probability).isNone
      || (dictFind? m.severity severity).isNone then
    .error "提供的概率或后果等级在当前配置中不存在。"
  else
    let prob_val := lookupD m.probability probability
    let sev_val := lookupD m.severity severity
    let risk_value := calculate_risk_value prob_val sev_val
    .ok (risk_value, determine_risk_level m.levels risk_value)

/-- One cell of the visualization matrix. -/
structure MatrixCell where
  probability : String
  severity : String
  risk_value : Int
  risk_level : String
deriving Repr, DecidableEq

/-- The `/risk-matrix/visualize` response shape. -/
structure MatrixVisualizationResponse where
  probability_axis : List String
  severity_axis : List String
  matrix_data : List (List MatrixCell)
deriving Repr, DecidableEq

/-- `sorted(map.keys(), key=map.get)`: stable sort of the key list by rank. -/
def sortKeysByRank (d : List (String × Int)) : List String :=
  List.insertionSort (fun a b => lookupD d a ≤ lookupD d b) (d.map Prod.fst)

/-- `get_matrix_visualization` of `risk_matrix_api.py`. -/
def get_matrix_visualization (m : RiskModel) : MatrixVisualizationResponse :=
  let prob_axis := sortKeysByRank m.probability
  let sev_axis := sortKeysByRank m.severity
  { probability_axis := prob_axis
    severity_axis := sev_axis
    matrix_data :=
      prob_axis.map (fun prob_name =>
        sev_axis.map (fun sev_name =>
          let prob_val := lookupD m.probability prob_name
          let sev_val := lookupD m.severity sev_name
          let risk_val := calculate_risk_value prob_val sev_val
          { probability := prob_name
            severity := sev_name
            risk_value := risk_val
            risk_level := determine_risk_level m.levels risk_val })) }

/-- One parsed spreadsheet row with cells for the three required columns
`类型`, `名称`, `数值`; `none` is a missing (NaN) cell. -/
structure RawRow where
  rowType : Option String
  name : Option String
  value : Option String
deriving Repr, DecidableEq

/-- Python `str(cell)`: a missing cell (NaN) stringifies to `"nan"`. -/
def pyStr : Option String → String
  | none => "nan"
  | some s => s

/-- Python `str.lower()` (ASCII case mapping, which covers the row-type tags). -/
def strLower (s : String) : String :=
  ⟨s.toList.map Char.toLower⟩

/-- Python `str.strip()`: drop whitespace from both ends. -/
def strTrim (s : String) : String :=
  ⟨(((s.toList.dropWhile Char.isWhitespace).reverse).dropWhile Char.isWhitespace).reverse⟩

/-- Python `str.endswith(post)` via character lists. -/
def strEndsWith (s post : String) : Bool :=
  post.toList.isSuffixOf s.toList

/-- Value of a nonempty decimal digit string. -/
def digitsToNat (cs : List Char) : Nat :=
  cs.foldl (fun n c => 10 * n + (c.toNat - 48)) 0

/-- Parse a nonempty all-digit character list, fail otherwise. -/
def parseDigits (cs : List Char) : Option Nat :=
  if cs.isEmpty then none
  else if cs.all Char.isDigit then some (digitsToNat cs)
  else none

/-- Python `int(cell)` on a spreadsheet cell: raises (returns `none`) on a
missing cell, otherwise parses the stripped text as an optionally signed
decimal integer. -/
def pyInt : Option String → Option Int
  | none => none
  | some s =>
    match (strTrim s).toList with
    | '-' :: rest => (parseDigits rest).map (fun n => -(n : Int))
    | '+' :: rest => (parseDigits rest).map (fun n => (n : Int))
    | cs => (parseDigits cs).map (fun n => (n : Int))

/-- Errors of the loader proper (`update_risk_model_from_excel` body). -/
inductive LoadError
  | malformedRow
  | incompleteConfiguration (missing : List String)
deriving Repr, DecidableEq

/-- `str(row['类型']).lower().strip()`. -/
def normalizeType (r : RawRow) : String :=
  strTrim (strLower (pyStr r.rowType))

/-- One iteration of the row loop in `update_risk_model_from_excel`:
`int(row['数值'])` is evaluated for every row (raising on failure), then the
row is dispatched on its normalized type; unmatched types fall through. -/
def processRow (acc : RiskModel) (r : RawRow) : Except LoadError RiskModel :=
  match pyInt r.value with
  | none => .error .malformedRow
  | some value =>
    if normalizeType r = "probability" then
      .ok { acc with probability := dictInsert acc.probability (pyStr r.name) value }
    else if normalizeType r = "severity" then
      .ok { acc with severity := dictInsert acc.severity (pyStr r.name) value }
    else if normalizeType r = "level" then
      .ok { acc with levels := acc.levels ++ [⟨pyStr r.name, value⟩] }
    else
      .ok acc

/-- `new_model = {"probability": {}, "severity": {}, "levels": []}`. -/
def emptyModel : RiskModel :=
  { probability := [], severity := [], levels := [] }

/-- The row loop of `update_risk_model_from_excel`. -/
def accumulateRows (rows : List RawRow) : Except LoadError RiskModel :=
  rows.foldlM processRow emptyModel

/-- `[key for key in ["probability", "severity", "levels"] if not new_model.get(key)]`. -/
def missingTypes (m : RiskModel) : List String :=
  (if m.probability.isEmpty then ["probability"] else []) ++
  (if m.severity.isEmpty then ["severity"] else []) ++
  (if m.levels.isEmpty then ["levels"] else [])

/-- Row accumulation followed by the completeness check, yielding the
candidate model or the first error. -/
def load_risk_model (rows : List RawRow) : Except LoadError RiskModel :=
  match accumulateRows rows with
  | .error e => .error e
  | .ok nm =>
    if (missingTypes nm).isEmpty then .ok nm
    else .error (.incompleteConfiguration (missingTypes nm))

/-- Errors surfaced by the `/risk-matrix/configure` endpoint. -/
inductive ConfigError
  | inputFormatError
  | malformedRow
  | incompleteConfiguration (missing : List String)
deriving Repr, DecidableEq

/-- Loader errors as seen at the endpoint boundary. -/
def liftLoadError : LoadError → ConfigError
  | .malformedRow => .malformedRow
  | .incompleteConfiguration missing => .incompleteConfiguration missing

/-- `required_columns = ['类型', '名称', '数值']`. -/
def required_columns : List String :=
  ["类型", "名称", "数值"]

/-- `update_risk_model_from_excel` as a state transition on the global
`current_risk_model`: returns the endpoint outcome together with the model
that is current afterwards.  The global is reassigned only on the success
path of the Python function. -/
def update_risk_model_from_excel (current : RiskModel) (filename : String)
    (columns : List String) (rows : List RawRow) :
    Except ConfigError Unit × RiskModel :=
  if strEndsWith filename ".xlsx" || strEndsWith filename ".xls" then
    if required_columns.all (fun c => columns.contains c) then
      match load_risk_model rows with
      | .ok nm => (.ok (), nm)
      | .error e => (.error (liftLoadError e), current)
    else (.error .inputFormatError, current)
  else (.error .inputFormatError, current)

/-- `probability` of `feng_xian_ju_zhen.py`. -/
def fx_probability : List (String × Int) :=
  [("极少发生", 1), ("很少发生", 2), ("偶尔发生", 3), ("有时发生", 4), ("经常发生", 5)]

/-- `severity` of `feng_xian_ju_zhen.py`. -/
def fx_severity : List (String × Int) :=
  [("轻微", 1), ("轻度", 2), ("严重", 3), ("灾难", 4)]

/-- `calculate_risk_value` of `feng_xian_ju_zhen.py`. -/
def fx_calculate_risk_value (prob sev : Int) : Int :=
  prob * sev

/-- `determine_risk_level` of `feng_xian_ju_zhen.py`: hard-coded bands. -/
def fx_determine_risk_level (risk_value : Int) : String :=
  if risk_value ≤ 4 then "低风险"
  else if 5 ≤ risk_value ∧ risk_value ≤ 9 then "中风险"
  else if 10 ≤ risk_value ∧ risk_value ≤ 15 then "高风险"
  else "极高风险"

/-- Ranks assigned by the `probability` rows of a load for a given name, in
row order (used to state that the last duplicate wins). -/
def probValuesFor (rows : List RawRow) (k : String) : List Int :=
  rows.filterMap (fun r =>
    if normalizeType r = "probability" ∧ pyStr r.name = k then pyInt r.value else none)

/-- Ranks assigned by the `severity` rows of a load for a given name, in
row order. -/
def sevValuesFor (rows : List RawRow) (k : String) : List Int :=
  rows.filterMap (fun r =>
    if normalizeType r = "severity" ∧ pyStr r.name = k then pyInt r.value else none)

/-- Threshold levels contributed by the `level` rows, in row order. -/
def levelRowsOf (rows : List RawRow) : List ThresholdLevel :=
  rows.filterMap (fun r =>
    if normalizeType r = "level" then (pyInt r.value).map (fun v => ⟨pyStr r.name, v⟩)
    else none)

instance : IsTotal ThresholdLevel levelLE :=
  ⟨fun a b => Int.le_total a.threshold b.threshold⟩

instance : IsTrans ThresholdLevel levelLE :=
  ⟨fun _ _ _ hab hbc => le_trans hab hbc⟩

theorem sortedLevels_perm (levels : List ThresholdLevel) :
    (sortedLevels levels).Perm levels :=
  List.perm_insertionSort levelLE levels

theorem sortedLevels_sorted (levels : List ThresholdLevel) :
    (sortedLevels levels).Sorted levelLE :=
  List.sorted_insertionSort levelLE levels

/-- C1: `determine_risk_level` returns the name of a qualifying threshold level
of minimal threshold (the first band, scanning in ascending threshold order,
whose inclusive upper bound is `>=` the risk value); when no threshold
qualifies it returns the sentinel `"未知风险"`; a value exactly equal to a
threshold gets that band's name (4 yields `"低风险"` in the default model). -/
theorem C1_risk_level_first_qualifying_band (levels : List ThresholdLevel) (v : Int) :
    ((∀ l ∈ levels, l.threshold < v) → determine_risk_level levels v = "未知风险") ∧
    ((∃ l ∈ levels, v ≤ l.threshold) →
      ∃ l ∈ levels, determine_risk_level levels v = l.name ∧ v ≤ l.threshold ∧
        ∀ l2 ∈ levels, v ≤ l2.threshold → l.threshold ≤ l2.threshold) ∧
    determine_risk_level DEFAULT_RISK_MODEL.levels 4 = "低风险" := by
  refine ⟨?_, ?_, by decide⟩
  · intro hall
    unfold determine_risk_level
    cases hfind : (sortedLevels levels).find? (fun l => decide (v ≤ l.threshold)) with
    | none => rfl
    | some l =>
      exfalso
      have hl := List.find?_some hfind
      have hmem : l ∈ levels :=
        (sortedLevels_perm levels).mem_iff.mp (List.mem_of_find?_eq_some hfind)
      have := hall l hmem
      simp only [decide_eq_true_eq] at hl
      omega
  · rintro ⟨l0, hl0mem, hl0⟩
    unfold determine_risk_level
    cases hfind : (sortedLevels levels).find? (fun l => decide (v ≤ l.threshold)) with
    | none =>
      exfalso
      have := List.find?_eq_none.mp hfind l0 ((sortedLevels_perm levels).mem_iff.mpr hl0mem)
      simp only [decide_eq_true_eq] at this
      omega
    | some l =>
      obtain ⟨hpl, as, bs, hsplit, hfail⟩ := List.find?_eq_some.mp hfind
      refine ⟨l, (sortedLevels_perm levels).mem_iff.mp (List.mem_of_find?_eq_some hfind),
        rfl, by simpa using hpl, ?_⟩
      intro l2 hl2mem hl2
      have hl2s : l2 ∈ sortedLevels levels := (sortedLevels_perm levels).mem_iff.mpr hl2mem
      rw [hsplit] at hl2s
      rcases List.mem_append.mp hl2s with h | h
      · exfalso
        have := hfail l2 h
        simp only [Bool.not_eq_true', decide_eq_false_iff_not] at this
        omega
      · rcases List.mem_cons.mp h with h | h
        · exact h ▸ le_refl _
        · have hs := sortedLevels_sorted levels
          rw [hsplit] at hs
          have hp2 := (List.pairwise_append.mp hs).2.1
          exact (List.pairwise_cons.mp hp2).1 l2 h

/-- C1 witness: concrete instantiations of the band-selection theorem. -/
theorem C1_witness :
    determine_risk_level [] 7 = "未知风险" ∧
    ∃ l ∈ DEFAULT_RISK_MODEL.levels,
      determine_risk_level DEFAULT_RISK_MODEL.levels 10 = l.name ∧ (10 : Int) ≤ l.threshold ∧
        ∀ l2 ∈ DEFAULT_RISK_MODEL.levels, (10 : Int) ≤ l2.threshold → l.threshold ≤ l2.threshold :=
  ⟨(C1_risk_level_first_qualifying_band [] 7).1 (by decide),
   (C1_risk_level_first_qualifying_band DEFAULT_RISK_MODEL.levels 10).2.1 (by decide)⟩

/-- C2: `calculate_risk_value` is exactly the product of the two ranks, and for
every valid pair of names in the default model the assessed risk value is the
product of the two looked-up ranks. -/
theorem C2_risk_value_is_product :
    (∀ p s : Int, calculate_risk_value p s = p * s) ∧
    (∀ pn sn pv sv, dictFind? DEFAULT_RISK_MODEL.probability pn = some pv →
      dictFind? DEFAULT_RISK_MODEL.severity sn = some sv →
      ∃ lvl, assess_risk DEFAULT_RISK_MODEL pn sn = .ok (pv * sv, lvl)) := by
  refine ⟨fun _ _ => rfl, fun pn sn pv sv hp hs => ?_⟩
  exact ⟨determine_risk_level DEFAULT_RISK_MODEL.levels (pv * sv),
    by simp [assess_risk, lookupD, hp, hs, calculate_risk_value]⟩

/-- C2 witness: a concrete valid pair of the default model. -/
theorem C2_witness :
    ∃ lvl, assess_risk DEFAULT_RISK_MODEL "很少发生" "灾难" = .ok (2 * 4, lvl) :=
  C2_risk_value_is_product.2 "很少发生" "灾难" 2 4 (by decide) (by decide)

/-- C3: `assess_risk` fails with the unknown-level-name error exactly when either
name is absent from the model's respective map, and when both names are present
it returns the product of the two ranks paired with that value's risk level. -/
theorem C3_assess_checks_names (m : RiskModel) (pn sn : String) :
    (assess_risk m pn sn = .error "提供的概率或后果等级在当前配置中不存在。" ↔
      (dictFind? m.probability pn = none ∨ dictFind? m.severity sn = none)) ∧
    (∀ pv sv, dictFind? m.probability pn = some pv → dictFind? m.severity sn = some sv →
      assess_risk m pn sn =
        .ok (calculate_risk_value pv sv,
          determine_risk_level m.levels (calculate_risk_value pv sv))) := by
  constructor
  · cases hp : dictFind? m.probability pn <;> cases hs : dictFind? m.severity sn <;>
      simp [assess_risk, hp, hs]
  · intro pv sv hp hs
    simp [assess_risk, lookupD, hp, hs]

/-- C3 witness: a concrete assessment in the default model. -/
theorem C3_witness :
    assess_risk DEFAULT_RISK_MODEL "偶尔发生" "严重" =
      .ok (calculate_risk_value 3 3,
        determine_risk_level DEFAULT_RISK_MODEL.levels (calculate_risk_value 3 3)) :=
  (C3_assess_checks_names DEFAULT_RISK_MODEL "偶尔发生" "严重").2 3 3 (by decide) (by decide)

/-- C4: every failed configure attempt (bad extension, missing columns, malformed
row, incomplete configuration) leaves the previously active model unchanged, and
a successful attempt installs exactly the model produced by the loader. -/
theorem C4_failed_configure_preserves_model (current : RiskModel) (filename : String)
    (columns : List String) (rows : List RawRow) :
    (∀ e, (update_risk_model_from_excel current filename columns rows).1 = .error e →
      (update_risk_model_from_excel current filename columns rows).2 = current) ∧
    ((update_risk_model_from_excel current filename columns rows).1 = .ok () →
      load_risk_model rows =
        .ok (update_risk_model_from_excel current filename columns rows).2) := by
  by_cases hext : (strEndsWith filename ".xlsx" || strEndsWith filename ".xls") = true
  · by_cases hcols : ∀ x ∈ required_columns, x ∈ columns
    · cases hload : load_risk_model rows with
      | ok nm =>
        simp [update_risk_model_from_excel, hext, hload]
        rw [if_pos hcols]
        simp
      | error e2 =>
        simp [update_risk_model_from_excel, hext, hload]
        rw [if_pos hcols]
        simp
    · simp [update_risk_model_from_excel, hext]
      rw [if_neg hcols]
      simp
  · simp [update_risk_model_from_excel, hext]

/-- C4 witness: a failed attempt (wrong file extension) keeps the default model. -/
theorem C4_witness :
    (update_risk_model_from_excel DEFAULT_RISK_MODEL "model.txt"
      ["类型", "名称", "数值"] []).2 = DEFAULT_RISK_MODEL :=
  (C4_failed_configure_preserves_model DEFAULT_RISK_MODEL "model.txt"
    ["类型", "名称", "数值"] []).1 .inputFormatError (by rfl)

theorem foldlM_processRow_cons_ok (acc acc2 : RiskModel) (r : RawRow) (rs : List RawRow)
    (h : processRow acc r = .ok acc2) :
    List.foldlM processRow acc (r :: rs) = List.foldlM processRow acc2 rs := by
  rw [List.foldlM_cons, h]
  rfl

theorem foldlM_processRow_cons_err (acc : RiskModel) (r : RawRow) (rs : List RawRow)
    (e : LoadError) (h : processRow acc r = .error e) :
    List.foldlM processRow acc (r :: rs) = .error e := by
  rw [List.foldlM_cons, h]
  rfl

theorem processRow_malformed (acc : RiskModel) (r : RawRow) (hv : pyInt r.value = none) :
    processRow acc r = .error .malformedRow := by
  unfold processRow
  rw [hv]

theorem processRow_valid (acc : RiskModel) (r : RawRow) (v : Int) (hv : pyInt r.value = some v) :
    processRow acc r =
      .ok (if normalizeType r = "probability" then
            { acc with probability := dictInsert acc.probability (pyStr r.name) v }
          else if normalizeType r = "severity" then
            { acc with severity := dictInsert acc.severity (pyStr r.name) v }
          else if normalizeType r = "level" then
            { acc with levels := acc.levels ++ [⟨pyStr r.name, v⟩] }
          else acc) := by
  unfold processRow
  rw [hv]
  split_ifs <;> rfl

theorem dictFind?_dictInsert_self (d : List (String × Int)) (k : String) (v : Int) :
    dictFind? (dictInsert d k v) k = some v := by
  unfold dictInsert
  split
  case isTrue h =>
    obtain ⟨p, hmem, hp⟩ := List.any_eq_true.mp h
    unfold dictFind?
    rw [List.find?_map]
    have hpred : ((fun q : String × Int => q.1 == k) ∘ fun p => if p.1 == k then (k, v) else p)
        = fun p : String × Int => p.1 == k := by
      funext q
      by_cases hq : q.1 = k
      · simp [hq]
      · simp [hq]
    rw [hpred]
    cases hfind : d.find? (fun p => p.1 == k) with
    | none =>
      exact absurd (List.find?_eq_none.mp hfind p hmem) (by simp [hp])
    | some q =>
      have hq := List.find?_some hfind
      simp only [beq_iff_eq] at hq
      simp [hq]
  case isFalse h =>
    unfold dictFind?
    rw [List.find?_append]
    have hnone : d.find? (fun p => p.1 == k) = none := by
      rw [List.find?_eq_none]
      intro x hx
      simp only [Bool.not_eq_true]
      by_contra hc
      rw [Bool.not_eq_false] at hc
      exact h (List.any_eq_true.mpr ⟨x, hx, hc⟩)
    simp [hnone, List.find?]

theorem dictFind?_dictInsert_other (d : List (String × Int)) (k k2 : String) (v : Int)
    (hne : k ≠ k2) : dictFind? (dictInsert d k v) k2 = dictFind? d k2 := by
  unfold dictInsert
  split
  case isTrue h =>
    unfold dictFind?
    rw [List.find?_map]
    have hpred : ((fun q : String × Int => q.1 == k2) ∘ fun p => if p.1 == k then (k, v) else p)
        = fun p : String × Int => p.1 == k2 := by
      funext q
      by_cases hq : q.1 = k
      · simp [hq, hne]
      · simp [hq]
    rw [hpred]
    cases hfind : d.find? (fun p => p.1 == k2) with
    | none => simp
    | some q =>
      have hq := List.find?_some hfind
      simp only [beq_iff_eq] at hq
      have hqk : q.1 ≠ k := by rw [hq]; exact Ne.symm hne
      simp [hqk]
  case isFalse h =>
    unfold dictFind?
    rw [List.find?_append]
    have h2 : [(k, v)].find? (fun p => p.1 == k2) = none := by
      have hkk : (k == k2) = false := beq_eq_false_iff_ne.mpr hne
      simp [List.find?, hkk]
    rw [h2]
    cases hfind : d.find? (fun p => p.1 == k2) <;> simp

theorem getLast?_cons_or (a : α) (l : List α) :
    (a :: l).getLast? =
      match l.getLast? with
      | some v => some v
      | none => some a := by
  cases hl : l.getLast? with
  | none =>
    rw [List.getLast?_eq_none_iff] at hl
    subst hl
    rfl
  | some v =>
    cases l with
    | nil => simp at hl
    | cons b bs => rw [List.getLast?_cons_cons, hl]


theorem processRow_prob (acc : RiskModel) (r : RawRow) (v : Int)
    (hv : pyInt r.value = some v) (hp : normalizeType r = "probability") :
    processRow acc r =
      .ok { acc with probability := dictInsert acc.probability (pyStr r.name) v } := by
  rw [processRow_valid acc r v hv, if_pos hp]

theorem processRow_sev (acc : RiskModel) (r : RawRow) (v : Int)
    (hv : pyInt r.value = some v) (hs : normalizeType r = "severity") :
    processRow acc r =
      .ok { acc with severity := dictInsert acc.severity (pyStr r.name) v } := by
  rw [processRow_valid acc r v hv, if_neg (by rw [hs]; decide), if_pos hs]

theorem processRow_lev (acc : RiskModel) (r : RawRow) (v : Int)
    (hv : pyInt r.value = some v) (hl : normalizeType r = "level") :
    processRow acc r =
      .ok { acc with levels := acc.levels ++ [⟨pyStr r.name, v⟩] } := by
  rw [processRow_valid acc r v hv, if_neg (by rw [hl]; decide),
    if_neg (by rw [hl]; decide), if_pos hl]

theorem processRow_skip (acc : RiskModel) (r : RawRow) (v : Int)
    (hv : pyInt r.value = some v) (hp : normalizeType r ≠ "probability")
    (hs : normalizeType r ≠ "severity") (hl : normalizeType r ≠ "level") :
    processRow acc r = .ok acc := by
  rw [processRow_valid acc r v hv, if_neg hp, if_neg hs, if_neg hl]

theorem foldlM_processRow_ok (rows : List RawRow) :
    ∀ acc, (∀ r ∈ rows, (pyInt r.value).isSome) →
      ∃ m, List.foldlM processRow acc rows = .ok m := by
  induction rows with
  | nil => exact fun acc _ => ⟨acc, rfl⟩
  | cons r rs ih =>
    intro acc hall
    obtain ⟨v, hv⟩ := Option.isSome_iff_exists.mp (hall r (List.mem_cons_self r rs))
    by_cases hp : normalizeType r = "probability"
    · obtain ⟨m, hm⟩ := ih _ (fun x hx => hall x (List.mem_cons_of_mem _ hx))
      exact ⟨m, by rw [foldlM_processRow_cons_ok _ _ _ _ (processRow_prob acc r v hv hp)]; exact hm⟩
    · by_cases hs : normalizeType r = "severity"
      · obtain ⟨m, hm⟩ := ih _ (fun x hx => hall x (List.mem_cons_of_mem _ hx))
        exact ⟨m, by rw [foldlM_processRow_cons_ok _ _ _ _ (processRow_sev acc r v hv hs)]; exact hm⟩
      · by_cases hl : normalizeType r = "level"
        · obtain ⟨m, hm⟩ := ih _ (fun x hx => hall x (List.mem_cons_of_mem _ hx))
          exact ⟨m, by rw [foldlM_processRow_cons_ok _ _ _ _ (processRow_lev acc r v hv hl)]; exact hm⟩
        · obtain ⟨m, hm⟩ := ih acc (fun x hx => hall x (List.mem_cons_of_mem _ hx))
          exact ⟨m, by rw [foldlM_processRow_cons_ok _ _ _ _ (processRow_skip acc r v hv hp hs hl)]; exact hm⟩

theorem foldlM_processRow_malformed (rows : List RawRow) :
    ∀ acc, (∃ r ∈ rows, pyInt r.value = none) →
      List.foldlM processRow acc rows = .error .malformedRow := by
  induction rows with
  | nil => rintro acc ⟨r, hr, _⟩; cases hr
  | cons r rs ih =>
    rintro acc ⟨r2, hr2, hr2v⟩
    cases hv : pyInt r.value with
    | none => exact foldlM_processRow_cons_err _ _ _ _ (processRow_malformed acc r hv)
    | some v =>
      have hr2s : r2 ∈ rs := by
        rcases List.mem_cons.mp hr2 with h | h
        · subst h; rw [hv] at hr2v; cases hr2v
        · exact h
      by_cases hp : normalizeType r = "probability"
      · rw [foldlM_processRow_cons_ok _ _ _ _ (processRow_prob acc r v hv hp)]
        exact ih _ ⟨r2, hr2s, hr2v⟩
      · by_cases hs : normalizeType r = "severity"
        · rw [foldlM_processRow_cons_ok _ _ _ _ (processRow_sev acc r v hv hs)]
          exact ih _ ⟨r2, hr2s, hr2v⟩
        · by_cases hl : normalizeType r = "level"
          · rw [foldlM_processRow_cons_ok _ _ _ _ (processRow_lev acc r v hv hl)]
            exact ih _ ⟨r2, hr2s, hr2v⟩
          · rw [foldlM_processRow_cons_ok _ _ _ _ (processRow_skip acc r v hv hp hs hl)]
            exact ih _ ⟨r2, hr2s, hr2v⟩

theorem foldlM_probability_lookup (rows : List RawRow) :
    ∀ acc m k, List.foldlM processRow acc rows = .ok m →
      dictFind? m.probability k =
        (match (probValuesFor rows k).getLast? with
         | some v => some v
         | none => dictFind? acc.probability k) := by
  induction rows with
  | nil =>
    intro acc m k h
    rw [List.foldlM_nil] at h
    have hacc : acc = m := Except.ok.inj h
    subst hacc
    simp [probValuesFor]
  | cons r rs ih =>
    intro acc m k h
    cases hv : pyInt r.value with
    | none =>
      rw [foldlM_processRow_cons_err _ _ _ _ (processRow_malformed acc r hv)] at h
      exact Except.noConfusion h
    | some v =>
      by_cases hp : normalizeType r = "probability"
      · rw [foldlM_processRow_cons_ok _ _ _ _ (processRow_prob acc r v hv hp)] at h
        have hrec := ih _ m k h
        by_cases hk : pyStr r.name = k
        · have hpv : probValuesFor (r :: rs) k = v :: probValuesFor rs k := by
            unfold probValuesFor
            rw [List.filterMap_cons_some]
            simp [hp, hk, hv]
          rw [hpv, getLast?_cons_or]
          cases hlast : (probValuesFor rs k).getLast? with
          | none =>
            simp only [hlast] at hrec ⊢
            rw [hrec]
            exact hk ▸ dictFind?_dictInsert_self acc.probability (pyStr r.name) v
          | some w =>
            simp only [hlast] at hrec ⊢
            exact hrec
        · have hpv : probValuesFor (r :: rs) k = probValuesFor rs k := by
            unfold probValuesFor
            rw [List.filterMap_cons_none]
            simp [hk]
          rw [hpv, hrec]
          cases hlast : (probValuesFor rs k).getLast? with
          | none =>
            simp only
            exact dictFind?_dictInsert_other acc.probability (pyStr r.name) k v hk
          | some w => simp only
      · have hpv : probValuesFor (r :: rs) k = probValuesFor rs k := by
          unfold probValuesFor
          rw [List.filterMap_cons_none]
          simp [hp]
        rw [hpv]
        by_cases hs : normalizeType r = "severity"
        · rw [foldlM_processRow_cons_ok _ _ _ _ (processRow_sev acc r v hv hs)] at h
          have hrec2 := ih _ m k h
          exact hrec2
        · by_cases hl : normalizeType r = "level"
          · rw [foldlM_processRow_cons_ok _ _ _ _ (processRow_lev acc r v hv hl)] at h
            have hrec2 := ih _ m k h
            exact hrec2
          · rw [foldlM_processRow_cons_ok _ _ _ _ (processRow_skip acc r v hv hp hs hl)] at h
            have hrec2 := ih _ m k h
            exact hrec2

theorem foldlM_severity_lookup (rows : List RawRow) :
    ∀ acc m k, List.foldlM processRow acc rows = .ok m →
      dictFind? m.severity k =
        (match (sevValuesFor rows k).getLast? with
         | some v => some v
         | none => dictFind? acc.severity k) := by
  induction rows with
  | nil =>
    intro acc m k h
    rw [List.foldlM_nil] at h
    have hacc : acc = m := Except.ok.inj h
    subst hacc
    simp [sevValuesFor]
  | cons r rs ih =>
    intro acc m k h
    cases hv : pyInt r.value with
    | none =>
      rw [foldlM_processRow_cons_err _ _ _ _ (processRow_malformed acc r hv)] at h
      exact Except.noConfusion h
    | some v =>
      by_cases hs : normalizeType r = "severity"
      · rw [foldlM_processRow_cons_ok _ _ _ _ (processRow_sev acc r v hv hs)] at h
        have hrec := ih _ m k h
        by_cases hk : pyStr r.name = k
        · have hsv : sevValuesFor (r :: rs) k = v :: sevValuesFor rs k := by
            unfold sevValuesFor
            rw [List.filterMap_cons_some]
            simp [hs, hk, hv]
          rw [hsv, getLast?_cons_or]
          cases hlast : (sevValuesFor rs k).getLast? with
          | none =>
            simp only [hlast] at hrec ⊢
            rw [hrec]
            exact hk ▸ dictFind?_dictInsert_self acc.severity (pyStr r.name) v
          | some w =>
            simp only [hlast] at hrec ⊢
            exact hrec
        · have hsv : sevValuesFor (r :: rs) k = sevValuesFor rs k := by
            unfold sevValuesFor
            rw [List.filterMap_cons_none]
            simp [hk]
          rw [hsv, hrec]
          cases hlast : (sevValuesFor rs k).getLast? with
          | none =>
            simp only
            exact dictFind?_dictInsert_other acc.severity (pyStr r.name) k v hk
          | some w => simp only
      · have hsv : sevValuesFor (r :: rs) k = sevValuesFor rs k := by
          unfold sevValuesFor
          rw [List.filterMap_cons_none]
          simp [hs]
        rw [hsv]
        by_cases hp : normalizeType r = "probability"
        · rw [foldlM_processRow_cons_ok _ _ _ _ (processRow_prob acc r v hv hp)] at h
          have hrec2 := ih _ m k h
          exact hrec2
        · by_cases hl : normalizeType r = "level"
          · rw [foldlM_processRow_cons_ok _ _ _ _ (processRow_lev acc r v hv hl)] at h
            have hrec2 := ih _ m k h
            exact hrec2
          · rw [foldlM_processRow_cons_ok _ _ _ _ (processRow_skip acc r v hv hp hs hl)] at h
            have hrec2 := ih _ m k h
            exact hrec2

theorem foldlM_levels (rows : List RawRow) :
    ∀ acc m, List.foldlM processRow acc rows = .ok m →
      m.levels = acc.levels ++ levelRowsOf rows := by
  induction rows with
  | nil =>
    intro acc m h
    rw [List.foldlM_nil] at h
    have hacc : acc = m := Except.ok.inj h
    subst hacc
    simp [levelRowsOf]
  | cons r rs ih =>
    intro acc m h
    cases hv : pyInt r.value with
    | none =>
      rw [foldlM_processRow_cons_err _ _ _ _ (processRow_malformed acc r hv)] at h
      exact Except.noConfusion h
    | some v =>
      by_cases hl : normalizeType r = "level"
      · have hlv : levelRowsOf (r :: rs) = ⟨pyStr r.name, v⟩ :: levelRowsOf rs := by
          unfold levelRowsOf
          rw [List.filterMap_cons_some]
          simp [hl, hv]
        rw [foldlM_processRow_cons_ok _ _ _ _ (processRow_lev acc r v hv hl)] at h
        have hrec := ih _ m h
        rw [hlv, hrec]
        simp
      · have hlv : levelRowsOf (r :: rs) = levelRowsOf rs := by
          unfold levelRowsOf
          rw [List.filterMap_cons_none]
          simp [hl]
        rw [hlv]
        by_cases hp : normalizeType r = "probability"
        · rw [foldlM_processRow_cons_ok _ _ _ _ (processRow_prob acc r v hv hp)] at h
          have hrec2 := ih _ m h
          exact hrec2
        · by_cases hs : normalizeType r = "severity"
          · rw [foldlM_processRow_cons_ok _ _ _ _ (processRow_sev acc r v hv hs)] at h
            have hrec2 := ih _ m h
            exact hrec2
          · rw [foldlM_processRow_cons_ok _ _ _ _ (processRow_skip acc r v hv hp hs hl)] at h
            have hrec2 := ih _ m h
            exact hrec2

theorem update_snd_of_load_error (current : RiskModel) (filename : String)
    (columns : List String) (rows : List RawRow) (e : LoadError)
    (h : load_risk_model rows = .error e) :
    (update_risk_model_from_excel current filename columns rows).2 = current := by
  unfold update_risk_model_from_excel
  by_cases hext : (strEndsWith filename ".xlsx" || strEndsWith filename ".xls") = true
  · rw [if_pos hext]
    by_cases hcols : (required_columns.all fun c => columns.contains c) = true
    · rw [if_pos hcols, h]
    · rw [if_neg hcols]
  · rw [if_neg hext]

/-- C5 counterexample: a row with an unrecognized rowType is NOT always
silently ignored — because the value cell is converted to an integer for
every row before the type dispatch, an unrecognized row with a non-integer
value aborts an otherwise successful load with the malformed-row error. -/
theorem C5_counterexample :
    load_risk_model
        [⟨some "probability", some "甲", some "1"⟩,
         ⟨some "severity", some "X", some "2"⟩,
         ⟨some "level", some "low", some "10"⟩,
         ⟨some "comment", some "note", some "abc"⟩] = .error .malformedRow ∧
    load_risk_model
        [⟨some "probability", some "甲", some "1"⟩,
         ⟨some "severity", some "X", some "2"⟩,
         ⟨some "level", some "low", some "10"⟩] =
      .ok { probability := [("甲", 1)], severity := [("X", 2)], levels := [⟨"low", 10⟩] } :=
  ⟨rfl, rfl⟩

/-- C5 (amended): the loader buckets rows by normalized rowType: an
unrecognized-type row whose value parses as an integer is a no-op; the final
probability and severity lookups return the LAST value assigned to a name
(later duplicates overwrite); level rows are appended in order, duplicates
allowed; but a row whose value cell does not parse as an integer aborts the
load with the malformed-row error even when its rowType is unrecognized. -/
theorem C5_buckets_amended :
    (∀ xs ys (r : RawRow), (pyInt r.value).isSome = true →
      normalizeType r ≠ "probability" → normalizeType r ≠ "severity" →
      normalizeType r ≠ "level" →
      accumulateRows (xs ++ r :: ys) = accumulateRows (xs ++ ys)) ∧
    (∀ rows m k, accumulateRows rows = .ok m →
      dictFind? m.probability k = (probValuesFor rows k).getLast? ∧
      dictFind? m.severity k = (sevValuesFor rows k).getLast?) ∧
    (∀ rows m, accumulateRows rows = .ok m → m.levels = levelRowsOf rows) ∧
    (∀ rows (r : RawRow), r ∈ rows → pyInt r.value = none →
      accumulateRows rows = .error .malformedRow) := by
  refine ⟨?_, ?_, ?_, ?_⟩
  · intro xs ys r hval hp hs hl
    unfold accumulateRows
    rw [List.foldlM_append, List.foldlM_append]
    cases hxs : List.foldlM processRow emptyModel xs with
    | error e => rfl
    | ok acc =>
      obtain ⟨v, hv⟩ := Option.isSome_iff_exists.mp hval
      show List.foldlM processRow acc (r :: ys) = List.foldlM processRow acc ys
      rw [foldlM_processRow_cons_ok _ _ _ _ (processRow_skip acc r v hv hp hs hl)]
  · intro rows m k hacc
    unfold accumulateRows at hacc
    have h1 := foldlM_probability_lookup rows emptyModel m k hacc
    have h2 := foldlM_severity_lookup rows emptyModel m k hacc
    constructor
    · rw [h1]
      cases hx : (probValuesFor rows k).getLast? <;> rfl
    · rw [h2]
      cases hx : (sevValuesFor rows k).getLast? <;> rfl
  · intro rows m hacc
    unfold accumulateRows at hacc
    have hlv := foldlM_levels rows emptyModel m hacc
    simpa using hlv
  · intro rows r hr hv
    unfold accumulateRows
    exact foldlM_processRow_malformed rows emptyModel ⟨r, hr, hv⟩

/-- C5 witness: an unrecognized row with a valid integer value is a no-op, and
the second of two probability rows for the same name wins. -/
theorem C5_witness :
    accumulateRows
        [⟨some "probability", some "甲", some "1"⟩, ⟨some "备注", some "x", some "7"⟩] =
      accumulateRows [⟨some "probability", some "甲", some "1"⟩] ∧
    dictFind? [("甲", 3)] "甲" =
      (probValuesFor [⟨some "probability", some "甲", some "1"⟩,
        ⟨some "probability", some "甲", some "3"⟩] "甲").getLast? := by
  constructor
  · exact C5_buckets_amended.1 [⟨some "probability", some "甲", some "1"⟩] []
      ⟨some "备注", some "x", some "7"⟩ (by decide) (by decide) (by decide) (by decide)
  · exact (C5_buckets_amended.2.1
      [⟨some "probability", some "甲", some "1"⟩, ⟨some "probability", some "甲", some "3"⟩]
      ⟨[("甲", 3)], [], []⟩ "甲" (by rfl)).1

/-- C6: once row accumulation has succeeded, the load fails with the
incomplete-configuration error iff at least one of the three buckets is empty,
and the reported list names exactly the empty buckets; when all three are
non-empty the load returns the fully-formed candidate model. -/
theorem C6_completeness_check (rows : List RawRow) (m : RiskModel)
    (hacc : accumulateRows rows = .ok m) :
    (load_risk_model rows = .ok m ↔
      (m.probability ≠ [] ∧ m.severity ≠ [] ∧ m.levels ≠ [])) ∧
    ((m.probability = [] ∨ m.severity = [] ∨ m.levels = []) →
      ∃ l, load_risk_model rows = .error (.incompleteConfiguration l) ∧ l ≠ [] ∧
        ("probability" ∈ l ↔ m.probability = []) ∧
        ("severity" ∈ l ↔ m.severity = []) ∧
        ("levels" ∈ l ↔ m.levels = []) ∧
        (∀ x ∈ l, x = "probability" ∨ x = "severity" ∨ x = "levels")) := by
  unfold load_risk_model
  rw [hacc]
  by_cases hp : m.probability = [] <;> by_cases hs : m.severity = [] <;>
    by_cases hl : m.levels = [] <;>
    simp [missingTypes, hp, hs, hl]

/-- C6 witness: a load with probability and severity rows but no level rows
fails naming exactly the `levels` bucket. -/
theorem C6_witness :
    ∃ l, load_risk_model
        [⟨some "probability", some "甲", some "1"⟩, ⟨some "severity", some "X", some "2"⟩] =
        .error (.incompleteConfiguration l) ∧ l ≠ [] ∧
      ("probability" ∈ l ↔ ([("甲", 1)] : List (String × Int)) = []) ∧
      ("severity" ∈ l ↔ ([("X", 2)] : List (String × Int)) = []) ∧
      ("levels" ∈ l ↔ ([] : List ThresholdLevel) = []) ∧
      (∀ x ∈ l, x = "probability" ∨ x = "severity" ∨ x = "levels") :=
  (C6_completeness_check
    [⟨some "probability", some "甲", some "1"⟩, ⟨some "severity", some "X", some "2"⟩]
    ⟨[("甲", 1)], [("X", 2)], []⟩ (by rfl)).2 (Or.inr (Or.inr rfl))

/-- C7 counterexample: a row whose required 名称 (name) field is absent does
NOT abort the load with a malformed-row error — the missing cell stringifies
to `"nan"` and the load succeeds. -/
theorem C7_counterexample :
    load_risk_model
        [⟨some "probability", none, some "1"⟩,
         ⟨some "severity", some "X", some "2"⟩,
         ⟨some "level", some "low", some "10"⟩] =
      .ok { probability := [("nan", 1)], severity := [("X", 2)], levels := [⟨"low", 10⟩] } :=
  rfl

/-- C7 (amended): the load aborts with the malformed-row error exactly when
some row's value cell fails integer conversion (an absent value cell counts as
failing); in that case no model is returned and the active model is left
untouched by the configure endpoint.  An absent name or type cell does not
abort the load. -/
theorem C7_malformed_value_aborts (rows : List RawRow) :
    (accumulateRows rows = .error .malformedRow ↔ ∃ r ∈ rows, pyInt r.value = none) ∧
    ((∃ r ∈ rows, pyInt r.value = none) →
      load_risk_model rows = .error .malformedRow ∧
      ∀ current filename columns,
        (update_risk_model_from_excel current filename columns rows).2 = current) := by
  have hback : (∃ r ∈ rows, pyInt r.value = none) →
      accumulateRows rows = .error .malformedRow := by
    intro hex
    unfold accumulateRows
    exact foldlM_processRow_malformed rows emptyModel hex
  constructor
  · constructor
    · intro herr
      by_contra hno
      push_neg at hno
      have hall : ∀ r ∈ rows, (pyInt r.value).isSome := by
        intro r hr
        cases hv : pyInt r.value with
        | none => exact absurd hv (hno r hr)
        | some v => rfl
      obtain ⟨m, hm⟩ := foldlM_processRow_ok rows emptyModel hall
      unfold accumulateRows at herr
      rw [hm] at herr
      exact Except.noConfusion herr
    · exact hback
  · intro hex
    have hacc := hback hex
    have hload : load_risk_model rows = .error .malformedRow := by
      unfold load_risk_model
      rw [hacc]
    exact ⟨hload, fun current filename columns =>
      update_snd_of_load_error current filename columns rows .malformedRow hload⟩

/-- C7 witness: a row with an absent value cell aborts the load and leaves the
active model untouched. -/
theorem C7_witness :
    load_risk_model [⟨some "level", some "low", none⟩] = .error .malformedRow ∧
    (update_risk_model_from_excel DEFAULT_RISK_MODEL "m.xlsx" ["类型", "名称", "数值"]
      [⟨some "level", some "low", none⟩]).2 = DEFAULT_RISK_MODEL := by
  have h := (C7_malformed_value_aborts [⟨some "level", some "low", none⟩]).2
    ⟨⟨some "level", some "low", none⟩, List.mem_singleton_self _, rfl⟩
  exact ⟨h.1, h.2 DEFAULT_RISK_MODEL "m.xlsx" ["类型", "名称", "数值"]⟩

theorem sortedLevels_default :
    sortedLevels DEFAULT_RISK_MODEL.levels = DEFAULT_RISK_MODEL.levels := by
  decide

/-- C8: the default model is exactly the stated configuration — probability
ranks 极少发生=1 … 经常发生=5, severity ranks 轻微=1 … 灾难=4, and ascending
inclusive threshold bands 低风险 ≤4, 中风险 ≤9, 高风险 ≤15, 极高风险 ≤999. -/
theorem C8_default_model (v : Int) :
    (DEFAULT_RISK_MODEL.probability =
        [("极少发生", 1), ("很少发生", 2), ("偶尔发生", 3), ("有时发生", 4), ("经常发生", 5)] ∧
      DEFAULT_RISK_MODEL.severity = [("轻微", 1), ("轻度", 2), ("严重", 3), ("灾难", 4)] ∧
      DEFAULT_RISK_MODEL.levels.map (fun l => (l.name, l.threshold)) =
        [("低风险", 4), ("中风险", 9), ("高风险", 15), ("极高风险", 999)]) ∧
    (v ≤ 4 → determine_risk_level DEFAULT_RISK_MODEL.levels v = "低风险") ∧
    (5 ≤ v ∧ v ≤ 9 → determine_risk_level DEFAULT_RISK_MODEL.levels v = "中风险") ∧
    (10 ≤ v ∧ v ≤ 15 → determine_risk_level DEFAULT_RISK_MODEL.levels v = "高风险") ∧
    (16 ≤ v ∧ v ≤ 999 → determine_risk_level DEFAULT_RISK_MODEL.levels v = "极高风险") := by
  refine ⟨⟨rfl, rfl, rfl⟩, ?_, ?_, ?_, ?_⟩
  · intro h
    have d1 : decide (v ≤ (4 : Int)) = true := decide_eq_true h
    simp [determine_risk_level, sortedLevels_default, List.find?, d1]
  · rintro ⟨h5, h9⟩
    have d1 : decide (v ≤ (4 : Int)) = false := decide_eq_false (by omega)
    have d2 : decide (v ≤ (9 : Int)) = true := decide_eq_true h9
    simp [determine_risk_level, sortedLevels_default, List.find?, d1, d2]
  · rintro ⟨h10, h15⟩
    have d1 : decide (v ≤ (4 : Int)) = false := decide_eq_false (by omega)
    have d2 : decide (v ≤ (9 : Int)) = false := decide_eq_false (by omega)
    have d3 : decide (v ≤ (15 : Int)) = true := decide_eq_true h15
    simp [determine_risk_level, sortedLevels_default, List.find?, d1, d2, d3]
  · rintro ⟨h16, h999⟩
    have d1 : decide (v ≤ (4 : Int)) = false := decide_eq_false (by omega)
    have d2 : decide (v ≤ (9 : Int)) = false := decide_eq_false (by omega)
    have d3 : decide (v ≤ (15 : Int)) = false := decide_eq_false (by omega)
    have d4 : decide (v ≤ (999 : Int)) = true := decide_eq_true h999
    simp [determine_risk_level, sortedLevels_default, List.find?, d1, d2, d3, d4]

/-- C8 witness: one value inside each default band. -/
theorem C8_witness :
    determine_risk_level DEFAULT_RISK_MODEL.levels 3 = "低风险" ∧
    determine_risk_level DEFAULT_RISK_MODEL.levels 7 = "中风险" ∧
    determine_risk_level DEFAULT_RISK_MODEL.levels 12 = "高风险" ∧
    determine_risk_level DEFAULT_RISK_MODEL.levels 100 = "极高风险" :=
  ⟨(C8_default_model 3).2.1 (by decide),
   (C8_default_model 7).2.2.1 (by decide),
   (C8_default_model 12).2.2.2.1 (by decide),
   (C8_default_model 100).2.2.2.2 (by decide)⟩

theorem dictFind?_mem {d : List (String × Int)} {k : String} {v : Int}
    (h : dictFind? d k = some v) : (k, v) ∈ d := by
  unfold dictFind? at h
  obtain ⟨⟨a, b⟩, hq, hq2⟩ := Option.map_eq_some'.mp h
  have hmem := List.mem_of_find?_eq_some hq
  have hpq := List.find?_some hq
  simp only [beq_iff_eq] at hpq
  have hb : b = v := hq2
  subst hpq
  subst hb
  exact hmem

/-- C10: over the default configuration, the console implementation's pipeline
(hard-coded bands ≤4 / 5-9 / 10-15 / else) and the API implementation's
pipeline over the default model produce the same risk value and the same risk
level name for every valid pair of level names. -/
theorem C10_console_api_agree (pn sn : String) (pv sv : Int)
    (hp : dictFind? fx_probability pn = some pv)
    (hs : dictFind? fx_severity sn = some sv) :
    assess_risk DEFAULT_RISK_MODEL pn sn =
      .ok (fx_calculate_risk_value pv sv,
        fx_determine_risk_level (fx_calculate_risk_value pv sv)) := by
  have hpm := dictFind?_mem hp
  have hsm := dictFind?_mem hs
  fin_cases hpm <;> fin_cases hsm <;> rfl

/-- C10 witness: the console and API pipelines agree on the extreme cell. -/
theorem C10_witness :
    assess_risk DEFAULT_RISK_MODEL "经常发生" "灾难" =
      .ok (fx_calculate_risk_value 5 4,
        fx_determine_risk_level (fx_calculate_risk_value 5 4)) :=
  C10_console_api_agree "经常发生" "灾难" 5 4 (by decide) (by decide)

theorem sortKeysByRank_length (d : List (String × Int)) :
    (sortKeysByRank d).length = d.length := by
  unfold sortKeysByRank
  rw [(List.perm_insertionSort _ _).length_eq, List.length_map]

/-- C9: the visualization matrix has one row per probability name and one
cell per severity name in each row; both axes are permutations of the model's
level names sorted ascending by rank; and the cell at axis position (i, j)
carries exactly the two axis labels, the product of their ranks as risk value,
and that value's risk level.  `get_matrix_visualization` is a function of the
model, hence deterministic. -/
theorem C9_visualize_matrix (m : RiskModel) :
    ((get_matrix_visualization m).probability_axis.Perm (m.probability.map Prod.fst) ∧
     (get_matrix_visualization m).severity_axis.Perm (m.severity.map Prod.fst)) ∧
    ((get_matrix_visualization m).probability_axis.Sorted
        (fun a b => lookupD m.probability a ≤ lookupD m.probability b) ∧
     (get_matrix_visualization m).severity_axis.Sorted
        (fun a b => lookupD m.severity a ≤ lookupD m.severity b)) ∧
    ((get_matrix_visualization m).matrix_data.length = m.probability.length ∧
     ∀ row ∈ (get_matrix_visualization m).matrix_data, row.length = m.severity.length) ∧
    (∀ i j, i < (get_matrix_visualization m).probability_axis.length →
      j < (get_matrix_visualization m).severity_axis.length →
      ∃ pn sn row,
        (get_matrix_visualization m).probability_axis[i]? = some pn ∧
        (get_matrix_visualization m).severity_axis[j]? = some sn ∧
        (get_matrix_visualization m).matrix_data[i]? = some row ∧
        row[j]? = some
          { probability := pn, severity := sn,
            risk_value := calculate_risk_value (lookupD m.probability pn) (lookupD m.severity sn),
            risk_level := determine_risk_level m.levels
              (calculate_risk_value (lookupD m.probability pn) (lookupD m.severity sn)) }) := by
  haveI hT1 : IsTotal String (fun a b => lookupD m.probability a ≤ lookupD m.probability b) :=
    ⟨fun a b => le_total _ _⟩
  haveI hR1 : IsTrans String (fun a b => lookupD m.probability a ≤ lookupD m.probability b) :=
    ⟨fun _ _ _ hab hbc => le_trans hab hbc⟩
  haveI hT2 : IsTotal String (fun a b => lookupD m.severity a ≤ lookupD m.severity b) :=
    ⟨fun a b => le_total _ _⟩
  haveI hR2 : IsTrans String (fun a b => lookupD m.severity a ≤ lookupD m.severity b) :=
    ⟨fun _ _ _ hab hbc => le_trans hab hbc⟩
  refine ⟨⟨List.perm_insertionSort _ _, List.perm_insertionSort _ _⟩,
    ⟨List.sorted_insertionSort _ _, List.sorted_insertionSort _ _⟩, ⟨?_, ?_⟩, ?_⟩
  · show ((sortKeysByRank m.probability).map _).length = _
    rw [List.length_map, sortKeysByRank_length]
  · intro row hrow
    obtain ⟨pn, hpn, hrow⟩ := List.mem_map.mp hrow
    subst hrow
    rw [List.length_map, sortKeysByRank_length]
  · intro i j hi hj
    have hi2 : i < (sortKeysByRank m.probability).length := hi
    have hj2 : j < (sortKeysByRank m.severity).length := hj
    refine ⟨(sortKeysByRank m.probability).get ⟨i, hi2⟩,
      (sortKeysByRank m.severity).get ⟨j, hj2⟩,
      (sortKeysByRank m.severity).map (fun sev_name =>
        let prob_val := lookupD m.probability ((sortKeysByRank m.probability).get ⟨i, hi2⟩)
        let sev_val := lookupD m.severity sev_name
        let risk_val := calculate_risk_value prob_val sev_val
        { probability := (sortKeysByRank m.probability).get ⟨i, hi2⟩
          severity := sev_name
          risk_value := risk_val
          risk_level := determine_risk_level m.levels risk_val }), ?_, ?_, ?_, ?_⟩
    · show (sortKeysByRank m.probability)[i]? = _
      rw [List.getElem?_eq_getElem hi2]
      rfl
    · show (sortKeysByRank m.severity)[j]? = _
      rw [List.getElem?_eq_getElem hj2]
      rfl
    · show ((sortKeysByRank m.probability).map _)[i]? = _
      rw [List.getElem?_map, List.getElem?_eq_getElem hi2]
      rfl
    · show ((sortKeysByRank m.severity).map _)[j]? = _
      rw [List.getElem?_map, List.getElem?_eq_getElem hj2]
      rfl

/-- C9 witness: the first cell of the default model's visualization. -/
theorem C9_witness :
    ∃ pn sn row,
      (get_matrix_visualization DEFAULT_RISK_MODEL).probability_axis[0]? = some pn ∧
      (get_matrix_visualization DEFAULT_RISK_MODEL).severity_axis[0]? = some sn ∧
      (get_matrix_visualization DEFAULT_RISK_MODEL).matrix_data[0]? = some row ∧
      row[0]? = some
        { probability := pn, severity := sn,
          risk_value := calculate_risk_value (lookupD DEFAULT_RISK_MODEL.probability pn)
            (lookupD DEFAULT_RISK_MODEL.severity sn),
          risk_level := determine_risk_level DEFAULT_RISK_MODEL.levels
            (calculate_risk_value (lookupD DEFAULT_RISK_MODEL.probability pn)
              (lookupD DEFAULT_RISK_MODEL.severity sn)) } :=
  (C9_visualize_matrix DEFAULT_RISK_MODEL).2.2.2 0 0 (by decide) (by decide)
